import Mathlib

/-!
Verification of `scripts/build-data.mjs`: the CSV parser and the
row-normalization pipeline that turns `data/shows.csv` into the record list
written to `data/shows.json`.  Every definition below is a shallow embedding
of the corresponding JavaScript function; file-system access, `console`
output and `process.exit` are modelled by pure values (`Except` for the
fatal paths, an explicit list of row numbers for the warnings).
-/

namespace BuildData

/-- JavaScript `String.prototype.trim` removes WhiteSpace and LineTerminator
code points (ECMA-262).  This predicate lists them. -/
def isJsWhitespace (c : Char) : Bool :=
  c = ' ' || c = '\t' || c = '\n' || c = '\r' || c = '\u000B' || c = '\u000C' ||
  c = '\u00A0' || c = '\u1680' || ('\u2000' ≤ c && c ≤ '\u200A') ||
  c = '\u2028' || c = '\u2029' || c = '\u202F' || c = '\u205F' ||
  c = '\u3000' || c = '\uFEFF'

/-- Embedding of JavaScript `s.trim()`. -/
def jsTrim (s : String) : String :=
  ⟨((s.data.dropWhile isJsWhitespace).reverse.dropWhile isJsWhitespace).reverse⟩

/-- Embedding of JavaScript `s.toUpperCase()` (character-wise; the ASCII
range, which is all the call sites compare against). -/
def jsToUpper (s : String) : String :=
  ⟨s.data.map Char.toUpper⟩

/-- Embedding of JavaScript `s.toLowerCase()` (character-wise; the ASCII
range, which is all the call sites compare against). -/
def jsToLower (s : String) : String :=
  ⟨s.data.map Char.toLower⟩

/-- `row.some(c => c.trim() !== "")`: the row has a cell that is non-empty
after trimming. -/
def rowNonBlank (row : List String) : Bool :=
  row.any (fun c => jsTrim c ≠ "")

/-- `if (row.some(c => c.trim() !== "")) rows.push(row)` — the finalization
step of `parseCsv`, which appends a finished row only when it is non-blank. -/
def pushRowIfNonBlank (rows : List (List String)) (row : List String) :
    List (List String) :=
  if rowNonBlank row then rows ++ [row] else rows

/-- The scan loop of `parseCsv` (lines 29–78 of `build-data.mjs`), one
constructor case per character examined.  State: remaining input, the
`inQuotes` flag, the cell accumulator `cur`, the current `row`, the finished
`rows`.  `text[i+1] === '"'` is the one-character lookahead, rendered as the
nested match on the tail. -/
def parseCsvAux : List Char → Bool → String → List String →
    List (List String) → List (List String)
  | [], _, cur, row, rows =>
      -- end of input: push the last cell, finalize the last row
      pushRowIfNonBlank rows (row ++ [cur])
  | '"' :: '"' :: rest, true, cur, row, rows =>
      -- escaped quote inside a quoted field: `text[i+1] === '"'`
      parseCsvAux rest true (cur.push '"') row rows
  | '"' :: rest, true, cur, row, rows =>
      -- lone quote exits quoted mode (also at end of input)
      parseCsvAux rest false cur row rows
  | c :: rest, true, cur, row, rows =>
      -- inside quotes every other character (commas, newlines, CR) is literal
      parseCsvAux rest true (cur.push c) row rows
  | c :: rest, false, cur, row, rows =>
      if c = '"' then parseCsvAux rest true cur row rows
      else if c = ',' then parseCsvAux rest false "" (row ++ [cur]) rows
      else if c = '\n' then
        parseCsvAux rest false "" [] (pushRowIfNonBlank rows (row ++ [cur]))
      else if c = '\r' then parseCsvAux rest false cur row rows
      else parseCsvAux rest false (cur.push c) row rows

/-- Embedding of `parseCsv(text)`. -/
def parseCsv (text : String) : List (List String) :=
  parseCsvAux text.data false "" [] []

/-- Variant of the scan loop that appends every finalized row, blank or not.
Used only to state the row-suppression property: `parseCsvAux` is this
followed by a filter. -/
def parseCsvAllAux : List Char → Bool → String → List String →
    List (List String) → List (List String)
  | [], _, cur, row, rows => rows ++ [row ++ [cur]]
  | '"' :: '"' :: rest, true, cur, row, rows =>
      parseCsvAllAux rest true (cur.push '"') row rows
  | '"' :: rest, true, cur, row, rows =>
      parseCsvAllAux rest false cur row rows
  | c :: rest, true, cur, row, rows =>
      parseCsvAllAux rest true (cur.push c) row rows
  | c :: rest, false, cur, row, rows =>
      if c = '"' then parseCsvAllAux rest true cur row rows
      else if c = ',' then parseCsvAllAux rest false "" (row ++ [cur]) rows
      else if c = '\n' then
        parseCsvAllAux rest false "" [] (rows ++ [row ++ [cur]])
      else if c = '\r' then parseCsvAllAux rest false cur row rows
      else parseCsvAllAux rest false (cur.push c) row rows

/-- All rows the scan finalizes, before blank-row suppression. -/
def parseCsvAllRows (text : String) : List (List String) :=
  parseCsvAllAux text.data false "" [] []

example : parseCsv "a,b\nc,d" = [["a", "b"], ["c", "d"]] := by decide
example : parseCsv "a,b\n\nc,d\n" = [["a", "b"], ["c", "d"]] := by decide
example : parseCsv "\"a,b\nc\"\"d\"" = [["a,b\nc\"d"]] := by decide
example : parseCsv " , ,\n" = [] := by decide

/-- Embedding of `normBool(v)`: trim, uppercase, compare against the truthy
token set.  (`v || ""` is the identity on strings: `""` is falsy and is
replaced by `""` itself.) -/
def normBool (v : String) : Bool :=
  let t := jsToUpper (jsTrim v)
  t = "A" || t = "Y" || t = "YES" || t = "TRUE" || t = "1"

/-- The delimiter class of the regex `/[;|,]/g` in `splitGenres`. -/
def isGenreDelim (c : Char) : Bool :=
  c = ';' || c = '|' || c = ','

/-- JavaScript `s.split(/[;|,]/g)`: every delimiter occurrence separates
two (possibly empty) tokens; `""` splits to `[""]`. -/
def splitOnDelimsAux : List Char → String → List String
  | [], acc => [acc]
  | c :: rest, acc =>
      if isGenreDelim c then acc :: splitOnDelimsAux rest ""
      else splitOnDelimsAux rest (acc.push c)

/-- See `splitOnDelimsAux`. -/
def splitOnDelims (s : String) : List String :=
  splitOnDelimsAux s.data ""

/-- Embedding of `splitGenres(v)`: trim; empty gives `[]`; otherwise split on
`;` `|` `,`, trim each token, drop empties (`filter(Boolean)`), lowercase. -/
def splitGenres (v : String) : List String :=
  let raw := jsTrim v
  if raw = "" then []
  else (((splitOnDelims raw).map jsTrim).filter (fun s => s ≠ "")).map jsToLower

/-- Numeric value of a run of decimal digits (most significant first). -/
def decDigitsVal (l : List Char) : Nat :=
  l.foldl (fun a c => 10 * a + (c.toNat - 48)) 0

/-- Decimal-digit run that must be non-empty and fully consumed. -/
def parseDecDigits (l : List Char) : Option Nat :=
  if !l.isEmpty && l.all Char.isDigit then some (decDigitsVal l) else none

def isHexDigitChar (c : Char) : Bool :=
  c.isDigit || ('a' ≤ c && c ≤ 'f') || ('A' ≤ c && c ≤ 'F')

def hexDigitVal (c : Char) : Nat :=
  if c.isDigit then c.toNat - 48
  else if 'a' ≤ c && c ≤ 'f' then c.toNat - 87
  else c.toNat - 55

def hexDigitsVal (l : List Char) : Nat :=
  l.foldl (fun a c => 16 * a + hexDigitVal c) 0

def isOctDigitChar (c : Char) : Bool :=
  '0' ≤ c && c ≤ '7'

def octDigitsVal (l : List Char) : Nat :=
  l.foldl (fun a c => 8 * a + (c.toNat - 48)) 0

def isBinDigitChar (c : Char) : Bool :=
  c = '0' || c = '1'

def binDigitsVal (l : List Char) : Nat :=
  l.foldl (fun a c => 2 * a + (c.toNat - 48)) 0

/-- The optional exponent part of a decimal literal: empty means exponent 0;
otherwise `e`/`E`, an optional sign, and a non-empty digit run consuming the
whole remainder; anything else is not a numeric literal. -/
def parseExpPart : List Char → Option Int
  | [] => some 0
  | c :: rest =>
      if c = 'e' || c = 'E' then
        match rest with
        | '+' :: r2 => (parseDecDigits r2).map (fun n => (n : Int))
        | '-' :: r2 => (parseDecDigits r2).map (fun n => -(n : Int))
        | r2 => (parseDecDigits r2).map (fun n => (n : Int))
      else none

/-- `floor (log2 n)` by repeated halving; the first argument is fuel, and
`n` itself is always enough of it since `log2 n ≤ n`.  (A first-class
recursive definition would be well-founded and hence not kernel-reducible,
which concrete evaluation needs.) -/
def natLog2Aux : Nat → Nat → Nat
  | 0, _ => 0
  | fuel + 1, n => if 2 ≤ n then natLog2Aux fuel (n / 2) + 1 else 0

/-- See `natLog2Aux`. -/
def natLog2 (n : Nat) : Nat :=
  natLog2Aux n n

/-- Round the exact rational `N / D` (`D ≠ 0`) to the nearest integer,
ties to even. -/
def roundNearestEven (N D : Nat) : Nat :=
  let q := N / D
  let r := N % D
  if 2 * r < D then q
  else if D < 2 * r then q + 1
  else if q % 2 = 0 then q else q + 1

/-- Whether `2 ^ e ≤ num / den` (for positive `num`, `den`). -/
def pow2Le (e : Int) (num den : Nat) : Bool :=
  if 0 ≤ e then den * 2 ^ e.toNat ≤ num else den ≤ num * 2 ^ (-e).toNat

/-- `floor (log2 (num / den))` for positive `num`, `den`: the difference of
the integer logs is off by at most one, so test the two candidates. -/
def floorLog2 (num den : Nat) : Int :=
  let k : Int := (natLog2 num : Int) - (natLog2 den : Int)
  if pow2Le (k + 1) num den then k + 1
  else if pow2Le k num den then k
  else k - 1

/-- The exact rational `±m * 2 ^ t`, built with a single `mkRat` so that
concrete values reduce inside the kernel. -/
def signedPow2 (neg : Bool) (m : Nat) (t : Int) : ℚ :=
  let mi : Int := if neg then -(m : Int) else (m : Int)
  if 0 ≤ t then mkRat (mi * (2 : Int) ^ t.toNat) 1
  else mkRat mi ((2 : Nat) ^ (-t).toNat)

/-- Round the exact non-negative rational `num / den` (`den ≠ 0`) to the
nearest IEEE-754 binary64 value (round to nearest, ties to even), apply the
sign, and return the exact rational value of the resulting double:
`none` when the magnitude overflows to infinity, which is where
`Number.isFinite` rejects the value at the call site; subnormals and
gradual underflow to `0` are represented exactly.  `-0` is collapsed to `0`
(`JSON.stringify` renders both as `0`). -/
def roundToDouble (neg : Bool) (num den : Nat) : Option ℚ :=
  if num = 0 then some 0
  else
    let e := floorLog2 num den
    if 1023 < e then none
    else if e < -1022 then
      some (signedPow2 neg (roundNearestEven (num * 2 ^ 1074) den) (-1074))
    else
      let shift : Int := 52 - e
      let si :=
        if 0 ≤ shift then roundNearestEven (num * 2 ^ shift.toNat) den
        else roundNearestEven num (den * 2 ^ (-shift).toNat)
      if si = 2 ^ 53 then
        if e = 1023 then none
        else some (signedPow2 neg (2 ^ 52) (e + 1 - 52))
      else some (signedPow2 neg si (e - 52))

/-- The double denoted by the scientific pair `(m, t)` (value `m * 10 ^ t`),
as produced by `parseUnsignedDecSci`. -/
def sciToDouble (neg : Bool) (m : Nat) (t : Int) : Option ℚ :=
  if 0 ≤ t then roundToDouble neg (m * 10 ^ t.toNat) 1
  else roundToDouble neg m (10 ^ (-t).toNat)

/-- ECMA-262 `StrUnsignedDecimalLiteral` (without `Infinity`):
`digits [. digits] [exp]` or `. digits [exp]`.  Returns the mantissa (all
parsed digits as one integer) and the power-of-ten exponent, so the denoted
value is `mantissa * 10 ^ exponent`. -/
def parseUnsignedDecSci (l : List Char) : Option (Nat × Int) :=
  let ip := l.takeWhile Char.isDigit
  let r1 := l.dropWhile Char.isDigit
  match r1 with
  | '.' :: r2 =>
      let fp := r2.takeWhile Char.isDigit
      let r3 := r2.dropWhile Char.isDigit
      if ip.isEmpty && fp.isEmpty then none
      else
        (parseExpPart r3).map (fun e =>
          (decDigitsVal ip * 10 ^ fp.length + decDigitsVal fp,
            e - (fp.length : Int)))
  | _ =>
      if ip.isEmpty then none
      else (parseExpPart r1).map (fun e => (decDigitsVal ip, e))

/-- ECMA-262 `StrNumericLiteral` on an already-trimmed, non-empty string,
composed with the finiteness test: `some q` when the literal denotes, after
rounding to binary64, the finite double of exact value `q`; `none` for `NaN`
(no parse), for the `Infinity` literal, and for a valid literal whose value
overflows the double range (`Number.isFinite` rejects all three at the call
site). -/
def parseStrNumericValue : List Char → Option ℚ
  | '+' :: rest =>
      if rest = "Infinity".data then none
      else (parseUnsignedDecSci rest).bind (fun p => sciToDouble false p.1 p.2)
  | '-' :: rest =>
      if rest = "Infinity".data then none
      else (parseUnsignedDecSci rest).bind (fun p => sciToDouble true p.1 p.2)
  | '0' :: c :: rest =>
      if c = 'x' || c = 'X' then
        if !rest.isEmpty && rest.all isHexDigitChar then
          roundToDouble false (hexDigitsVal rest) 1
        else none
      else if c = 'o' || c = 'O' then
        if !rest.isEmpty && rest.all isOctDigitChar then
          roundToDouble false (octDigitsVal rest) 1
        else none
      else if c = 'b' || c = 'B' then
        if !rest.isEmpty && rest.all isBinDigitChar then
          roundToDouble false (binDigitsVal rest) 1
        else none
      else
        (parseUnsignedDecSci ('0' :: c :: rest)).bind
          (fun p => sciToDouble false p.1 p.2)
  | l =>
      if l = "Infinity".data then none
      else (parseUnsignedDecSci l).bind (fun p => sciToDouble false p.1 p.2)

/-- Model of `Number(s)` composed with `Number.isFinite`: `some q` exactly
when the JavaScript conversion yields a finite double, whose exact rational
value is `q` (`Number` itself trims whitespace and maps the
empty/whitespace-only string to `0`; literal values are rounded to binary64,
so overflowing literals such as `1e309` become `Infinity` and yield
`none`). -/
def jsNumber (s : String) : Option ℚ :=
  let t := jsTrim s
  if t = "" then some 0 else parseStrNumericValue t.data

/-- JavaScript `s.replace("%", "")` with a string pattern removes only the
FIRST occurrence of `%`. -/
def removeFirstPctAux : List Char → List Char
  | [] => []
  | c :: rest => if c = '%' then rest else c :: removeFirstPctAux rest

/-- See `removeFirstPctAux`. -/
def removeFirstPct (s : String) : String :=
  ⟨removeFirstPctAux s.data⟩

/-- Embedding of `toNumberOrNull(v)`: `const t = v.trim().replace("%","")`,
empty gives `null`, otherwise `Number(t)` guarded by `Number.isFinite`. -/
def toNumberOrNull (v : String) : Option ℚ :=
  let t := removeFirstPct (jsTrim v)
  if t = "" then none else jsNumber t

example : toNumberOrNull "85" = some 85 := by decide
example : toNumberOrNull "85%" = some 85 := by decide
example : toNumberOrNull "" = none := by decide
example : toNumberOrNull "n/a" = none := by decide
example : toNumberOrNull "%85" = some 85 := by decide
example : toNumberOrNull "92.5" = some (mkRat 185 2) := by decide
set_option maxRecDepth 40000 in
set_option exponentiation.threshold 5000 in
example : toNumberOrNull "1e309" = none := by decide
set_option maxRecDepth 40000 in
set_option exponentiation.threshold 5000 in
example : toNumberOrNull "2e308" = none := by decide
set_option maxRecDepth 40000 in
set_option exponentiation.threshold 5000 in
example : (toNumberOrNull "1e308").isSome = true := by decide
example : toNumberOrNull "0.1" = some (mkRat 3602879701896397 (2 ^ 55)) := by
  decide
example : splitGenres "Drama; comedy,Site Specific" =
    ["drama", "comedy", "site specific"] := by decide

/-- The normalized record built by `main` for one data row (the object
literal at lines 155–156 of `build-data.mjs`).  `rating` is the exact value
of the JavaScript number, or `none` for `null`. -/
structure ShowRecord where
  date : String
  title : String
  theatre : String
  place : String
  city : String
  host : Bool
  removed : Bool
  genres : List String
  rating : Option ℚ
  comment : String
deriving DecidableEq, Repr

/-- The `required` column-name list of `main`. -/
def requiredCols : List String :=
  ["Datum", "Nazev", "Soubor", "Misto", "Mesto", "Hostovacka", "StazenoZR",
   "Zanry", "Hodnoceni", "Komentar"]

/-- `Object.fromEntries(header.map((h, i) => [h, i]))[name]`: the position of
`name` in the header; with duplicate names the later entry overwrites the
earlier one, so the LAST index wins. -/
def lastIdx (name : String) : List String → Option Nat
  | [] => none
  | h :: t =>
      match lastIdx name t with
      | some i => some (i + 1)
      | none => if h = name then some 0 else none

/-- `const get = (name) => (r[idx[name]] ?? "").trim()`: cell lookup by
column name; a missing column position or an out-of-range cell yields the
empty string. -/
def cellOf (idx : String → Option Nat) (r : List String) (name : String) :
    String :=
  jsTrim (((idx name).bind (fun i => r.get? i)).getD "")

/-- The body of the `rows.slice(1).map(...)` callback: build the record, or
`none` (JavaScript `null`) when the trimmed `Datum` or `Nazev` is empty.
The row index only feeds the warning message, so it is not a parameter. -/
def rowToShow (idx : String → Option Nat) (r : List String) :
    Option ShowRecord :=
  let date := cellOf idx r "Datum"
  let title := cellOf idx r "Nazev"
  if date = "" || title = "" then none
  else
    some ⟨date, title, cellOf idx r "Soubor", cellOf idx r "Misto",
      cellOf idx r "Mesto", normBool (cellOf idx r "Hostovacka"),
      normBool (cellOf idx r "StazenoZR"), splitGenres (cellOf idx r "Zanry"),
      toNumberOrNull (cellOf idx r "Hodnoceni"), cellOf idx r "Komentar"⟩

/-- `rows.slice(1).map(...).filter(Boolean)`: the record list with the
skipped (`null`) rows removed, input order preserved. -/
def processShows (idx : String → Option Nat) (dataRows : List (List String)) :
    List ShowRecord :=
  (dataRows.map (rowToShow idx)).reduceOption

/-- The `console.warn("Row ...")` side effects of the map, modelled as the
list of reported row numbers in emission order: data row at 0-based position
`i` is reported as `i + 2` (the header is row 1). -/
def warnRows (idx : String → Option Nat) (dataRows : List (List String)) :
    List Nat :=
  (dataRows.mapIdx (fun i r => if rowToShow idx r = none then some (i + 2)
    else none)).reduceOption

instance {ε α : Type} [DecidableEq ε] [DecidableEq α] :
    DecidableEq (Except ε α) := fun x y =>
  match x, y with
  | .ok a, .ok b =>
      if h : a = b then .isTrue (h ▸ rfl)
      else .isFalse (fun he => h (Except.ok.inj he))
  | .error a, .error b =>
      if h : a = b then .isTrue (h ▸ rfl)
      else .isFalse (fun he => h (Except.error.inj he))
  | .ok _, .error _ => .isFalse (fun he => Except.noConfusion he)
  | .error _, .ok _ => .isFalse (fun he => Except.noConfusion he)

/-- The pure core of `main()`, from the parsed CSV text to either a fatal
diagnostic (`process.exit(1)` with its `console.error` message — no output
file is written) or the record list that becomes `out.shows`. -/
def buildOutput (csvText : String) : Except String (List ShowRecord) :=
  let rows := parseCsv csvText
  if rows.length < 2 then
    Except.error "CSV is empty (need header + at least one row)."
  else
    let header := (rows.headD []).map (fun h => jsTrim h)
    let idx := fun name => lastIdx name header
    let missing := requiredCols.filter (fun r => (idx r).isNone)
    if !missing.isEmpty then
      Except.error ("Missing columns in CSV header: " ++
        String.intercalate ", " missing)
    else
      Except.ok (processShows idx (rows.drop 1))

set_option maxRecDepth 20000 in
example :
    buildOutput ("Datum,Nazev,Soubor,Misto,Mesto,Hostovacka,StazenoZR,Zanry,Hodnoceni,Komentar\n" ++
      "2024-01-01,Hamlet,Troupe,Theatre,City,A,N,drama;tragedy,92,Great show") =
    Except.ok [⟨"2024-01-01", "Hamlet", "Troupe", "Theatre", "City", true,
      false, ["drama", "tragedy"], some 92, "Great show"⟩] := by decide

example : buildOutput "A,B\n1,2" =
    Except.error ("Missing columns in CSV header: " ++
      String.intercalate ", " requiredCols) := by decide

/-- Rendering of claim C2's own words, for comparison with the code's
`toNumberOrNull`: strip a TRAILING percent sign if present (the code instead
removes the first `%` anywhere), trim, empty gives `null`, otherwise parse. -/
def toNumberOrNullSpec (v : String) : Option ℚ :=
  let t0 := jsTrim v
  let t := if t0.data.getLast? = some '%' then ⟨t0.data.dropLast⟩ else t0
  if t = "" then none else jsNumber t

/-- The amended numeric coercion: trim, then remove the FIRST occurrence of
a percent sign anywhere in the string (what `replace("%", "")` does); empty
gives `null`; otherwise convert with `Number`, with `null` whenever the
result is not a finite double — an invalid literal (`NaN`), the `Infinity`
literal, or a valid literal overflowing the binary64 range such as
`1e309`. -/
def toNumberOrNullAmended (v : String) : Option ℚ :=
  let t := removeFirstPct (jsTrim v)
  if t = "" then none else jsNumber t

/-- The 0-based positions (among the data rows) of the rows the normalizer
skips.  Reference definition used to state the diagnostics property. -/
def excludedIndices (idx : String → Option Nat) (rows : List (List String)) :
    List Nat :=
  ((List.range rows.length).zip rows).filterMap
    (fun p => if rowToShow idx p.2 = none then some p.1 else none)

/-- The scan loop of `parseCsv` again, but charging one unit of fuel per
loop iteration (the escaped-quote iteration advances the index by two
characters but still costs one iteration).  `none` means the fuel ran out
before the loop exited. -/
def parseCsvFuelAux : Nat → List Char → Bool → String → List String →
    List (List String) → Option (List (List String))
  | _, [], _, cur, row, rows => some (pushRowIfNonBlank rows (row ++ [cur]))
  | 0, _ :: _, _, _, _, _ => none
  | fuel + 1, '"' :: '"' :: rest, true, cur, row, rows =>
      parseCsvFuelAux fuel rest true (cur.push '"') row rows
  | fuel + 1, '"' :: rest, true, cur, row, rows =>
      parseCsvFuelAux fuel rest false cur row rows
  | fuel + 1, c :: rest, true, cur, row, rows =>
      parseCsvFuelAux fuel rest true (cur.push c) row rows
  | fuel + 1, c :: rest, false, cur, row, rows =>
      if c = '"' then parseCsvFuelAux fuel rest true cur row rows
      else if c = ',' then parseCsvFuelAux fuel rest false "" (row ++ [cur]) rows
      else if c = '\n' then
        parseCsvFuelAux fuel rest false "" []
          (pushRowIfNonBlank rows (row ++ [cur]))
      else if c = '\r' then parseCsvFuelAux fuel rest false cur row rows
      else parseCsvFuelAux fuel rest false (cur.push c) row rows

example : toNumberOrNullSpec "%85" = none := by decide
example : toNumberOrNullSpec "85%" = some 85 := by decide

/-! ## Step lemmas for the scan loops -/

lemma parseCsvAux_nil (q : Bool) (cur : String) (row : List String)
    (rows : List (List String)) :
    parseCsvAux [] q cur row rows = pushRowIfNonBlank rows (row ++ [cur]) := rfl

lemma parseCsvAux_esc (rest : List Char) (cur : String) (row : List String)
    (rows : List (List String)) :
    parseCsvAux ('"' :: '"' :: rest) true cur row rows =
      parseCsvAux rest true (cur.push '"') row rows := by
  simp [parseCsvAux]

lemma parseCsvAux_exit_nil (cur : String) (row : List String)
    (rows : List (List String)) :
    parseCsvAux ['"'] true cur row rows = parseCsvAux [] false cur row rows := by
  simp [parseCsvAux]

lemma parseCsvAux_exit (c : Char) (rest : List Char) (cur : String)
    (row : List String) (rows : List (List String)) (h : c ≠ '"') :
    parseCsvAux ('"' :: c :: rest) true cur row rows =
      parseCsvAux (c :: rest) false cur row rows := by
  simp [parseCsvAux, h]

lemma parseCsvAux_litq (c : Char) (rest : List Char) (cur : String)
    (row : List String) (rows : List (List String)) (h : c ≠ '"') :
    parseCsvAux (c :: rest) true cur row rows =
      parseCsvAux rest true (cur.push c) row rows := by
  simp [parseCsvAux, h]

lemma parseCsvAux_quote (rest : List Char) (cur : String) (row : List String)
    (rows : List (List String)) :
    parseCsvAux ('"' :: rest) false cur row rows =
      parseCsvAux rest true cur row rows := by
  simp [parseCsvAux]

lemma parseCsvAux_comma (rest : List Char) (cur : String) (row : List String)
    (rows : List (List String)) :
    parseCsvAux (',' :: rest) false cur row rows =
      parseCsvAux rest false "" (row ++ [cur]) rows := by
  simp [parseCsvAux]

lemma parseCsvAux_newline (rest : List Char) (cur : String) (row : List String)
    (rows : List (List String)) :
    parseCsvAux ('\n' :: rest) false cur row rows =
      parseCsvAux rest false "" [] (pushRowIfNonBlank rows (row ++ [cur])) := by
  simp [parseCsvAux]

lemma parseCsvAux_cr (rest : List Char) (cur : String) (row : List String)
    (rows : List (List String)) :
    parseCsvAux ('\r' :: rest) false cur row rows =
      parseCsvAux rest false cur row rows := by
  simp [parseCsvAux]

lemma parseCsvAux_other (c : Char) (rest : List Char) (cur : String)
    (row : List String) (rows : List (List String)) (h1 : c ≠ '"')
    (h2 : c ≠ ',') (h3 : c ≠ '\n') (h4 : c ≠ '\r') :
    parseCsvAux (c :: rest) false cur row rows =
      parseCsvAux rest false (cur.push c) row rows := by
  simp [parseCsvAux, h1, h2, h3, h4]

lemma parseCsvAllAux_nil (q : Bool) (cur : String) (row : List String)
    (rows : List (List String)) :
    parseCsvAllAux [] q cur row rows = rows ++ [row ++ [cur]] := rfl

lemma parseCsvAllAux_esc (rest : List Char) (cur : String) (row : List String)
    (rows : List (List String)) :
    parseCsvAllAux ('"' :: '"' :: rest) true cur row rows =
      parseCsvAllAux rest true (cur.push '"') row rows := by
  simp [parseCsvAllAux]

lemma parseCsvAllAux_exit_nil (cur : String) (row : List String)
    (rows : List (List String)) :
    parseCsvAllAux ['"'] true cur row rows =
      parseCsvAllAux [] false cur row rows := by
  simp [parseCsvAllAux]

lemma parseCsvAllAux_exit (c : Char) (rest : List Char) (cur : String)
    (row : List String) (rows : List (List String)) (h : c ≠ '"') :
    parseCsvAllAux ('"' :: c :: rest) true cur row rows =
      parseCsvAllAux (c :: rest) false cur row rows := by
  simp [parseCsvAllAux, h]

lemma parseCsvAllAux_litq (c : Char) (rest : List Char) (cur : String)
    (row : List String) (rows : List (List String)) (h : c ≠ '"') :
    parseCsvAllAux (c :: rest) true cur row rows =
      parseCsvAllAux rest true (cur.push c) row rows := by
  simp [parseCsvAllAux, h]

lemma parseCsvAllAux_quote (rest : List Char) (cur : String) (row : List String)
    (rows : List (List String)) :
    parseCsvAllAux ('"' :: rest) false cur row rows =
      parseCsvAllAux rest true cur row rows := by
  simp [parseCsvAllAux]

lemma parseCsvAllAux_comma (rest : List Char) (cur : String) (row : List String)
    (rows : List (List String)) :
    parseCsvAllAux (',' :: rest) false cur row rows =
      parseCsvAllAux rest false "" (row ++ [cur]) rows := by
  simp [parseCsvAllAux]

lemma parseCsvAllAux_newline (rest : List Char) (cur : String)
    (row : List String) (rows : List (List String)) :
    parseCsvAllAux ('\n' :: rest) false cur row rows =
      parseCsvAllAux rest false "" [] (rows ++ [row ++ [cur]]) := by
  simp [parseCsvAllAux]

lemma parseCsvAllAux_cr (rest : List Char) (cur : String) (row : List String)
    (rows : List (List String)) :
    parseCsvAllAux ('\r' :: rest) false cur row rows =
      parseCsvAllAux rest false cur row rows := by
  simp [parseCsvAllAux]

lemma parseCsvAllAux_other (c : Char) (rest : List Char) (cur : String)
    (row : List String) (rows : List (List String)) (h1 : c ≠ '"')
    (h2 : c ≠ ',') (h3 : c ≠ '\n') (h4 : c ≠ '\r') :
    parseCsvAllAux (c :: rest) false cur row rows =
      parseCsvAllAux rest false (cur.push c) row rows := by
  simp [parseCsvAllAux, h1, h2, h3, h4]

lemma parseCsvFuelAux_nil (fuel : Nat) (q : Bool) (cur : String)
    (row : List String) (rows : List (List String)) :
    parseCsvFuelAux fuel [] q cur row rows =
      some (pushRowIfNonBlank rows (row ++ [cur])) := by
  cases fuel <;> rfl

lemma parseCsvFuelAux_esc (fuel : Nat) (rest : List Char) (cur : String)
    (row : List String) (rows : List (List String)) :
    parseCsvFuelAux (fuel + 1) ('"' :: '"' :: rest) true cur row rows =
      parseCsvFuelAux fuel rest true (cur.push '"') row rows := by
  simp [parseCsvFuelAux]

lemma parseCsvFuelAux_exit_nil (fuel : Nat) (cur : String) (row : List String)
    (rows : List (List String)) :
    parseCsvFuelAux (fuel + 1) ['"'] true cur row rows =
      parseCsvFuelAux fuel [] false cur row rows := by
  simp [parseCsvFuelAux]

lemma parseCsvFuelAux_exit (fuel : Nat) (c : Char) (rest : List Char)
    (cur : String) (row : List String) (rows : List (List String))
    (h : c ≠ '"') :
    parseCsvFuelAux (fuel + 1) ('"' :: c :: rest) true cur row rows =
      parseCsvFuelAux fuel (c :: rest) false cur row rows := by
  simp [parseCsvFuelAux, h]

lemma parseCsvFuelAux_litq (fuel : Nat) (c : Char) (rest : List Char)
    (cur : String) (row : List String) (rows : List (List String))
    (h : c ≠ '"') :
    parseCsvFuelAux (fuel + 1) (c :: rest) true cur row rows =
      parseCsvFuelAux fuel rest true (cur.push c) row rows := by
  simp [parseCsvFuelAux, h]

lemma parseCsvFuelAux_quote (fuel : Nat) (rest : List Char) (cur : String)
    (row : List String) (rows : List (List String)) :
    parseCsvFuelAux (fuel + 1) ('"' :: rest) false cur row rows =
      parseCsvFuelAux fuel rest true cur row rows := by
  simp [parseCsvFuelAux]

lemma parseCsvFuelAux_comma (fuel : Nat) (rest : List Char) (cur : String)
    (row : List String) (rows : List (List String)) :
    parseCsvFuelAux (fuel + 1) (',' :: rest) false cur row rows =
      parseCsvFuelAux fuel rest false "" (row ++ [cur]) rows := by
  simp [parseCsvFuelAux]

lemma parseCsvFuelAux_newline (fuel : Nat) (rest : List Char) (cur : String)
    (row : List String) (rows : List (List String)) :
    parseCsvFuelAux (fuel + 1) ('\n' :: rest) false cur row rows =
      parseCsvFuelAux fuel rest false "" []
        (pushRowIfNonBlank rows (row ++ [cur])) := by
  simp [parseCsvFuelAux]

lemma parseCsvFuelAux_cr (fuel : Nat) (rest : List Char) (cur : String)
    (row : List String) (rows : List (List String)) :
    parseCsvFuelAux (fuel + 1) ('\r' :: rest) false cur row rows =
      parseCsvFuelAux fuel rest false cur row rows := by
  simp [parseCsvFuelAux]

lemma parseCsvFuelAux_other (fuel : Nat) (c : Char) (rest : List Char)
    (cur : String) (row : List String) (rows : List (List String))
    (h1 : c ≠ '"') (h2 : c ≠ ',') (h3 : c ≠ '\n') (h4 : c ≠ '\r') :
    parseCsvFuelAux (fuel + 1) (c :: rest) false cur row rows =
      parseCsvFuelAux fuel rest false (cur.push c) row rows := by
  simp [parseCsvFuelAux, h1, h2, h3, h4]

lemma pushRowIfNonBlank_eq (rows : List (List String)) (row : List String) :
    pushRowIfNonBlank rows row = rows ++ [row].filter rowNonBlank := by
  by_cases h : rowNonBlank row <;> simp [pushRowIfNonBlank, List.filter_cons, h]

lemma jsToLower_ne_empty (s : String) (h : s ≠ "") : jsToLower s ≠ "" := by
  intro he
  apply h
  have h2 := congrArg String.data he
  simp only [jsToLower] at h2
  have h3 : s.data = [] := List.map_eq_nil_iff.mp h2
  exact String.ext (by simpa using h3)

/-- The all-rows scan only ever appends to its `rows` accumulator. -/
lemma parseCsvAllAux_append :
    ∀ (l : List Char) (q : Bool) (cur : String) (row : List String)
      (rows : List (List String)),
      parseCsvAllAux l q cur row rows = rows ++ parseCsvAllAux l q cur row [] := by
  have key : ∀ (n : Nat) (l : List Char), l.length ≤ n →
      ∀ (q : Bool) (cur : String) (row : List String)
        (rows : List (List String)),
        parseCsvAllAux l q cur row rows =
          rows ++ parseCsvAllAux l q cur row [] := by
    intro n
    induction n with
    | zero =>
        intro l hl q cur row rows
        obtain rfl : l = [] := List.length_eq_zero.mp (Nat.le_zero.mp hl)
        simp [parseCsvAllAux_nil]
    | succ n IH =>
        intro l hl q cur row rows
        rcases l with _ | ⟨c, rest⟩
        · simp [parseCsvAllAux_nil]
        · have hr : rest.length ≤ n := by simp at hl; omega
          cases q with
          | false =>
              by_cases h1 : c = '"'
              · subst h1
                rw [parseCsvAllAux_quote, parseCsvAllAux_quote]
                exact IH rest hr true cur row rows
              · by_cases h2 : c = ','
                · subst h2
                  rw [parseCsvAllAux_comma, parseCsvAllAux_comma]
                  exact IH rest hr false "" (row ++ [cur]) rows
                · by_cases h3 : c = '\n'
                  · subst h3
                    rw [parseCsvAllAux_newline, parseCsvAllAux_newline,
                      IH rest hr false "" [] (rows ++ [row ++ [cur]]),
                      IH rest hr false "" [] ([] ++ [row ++ [cur]])]
                    simp
                  · by_cases h4 : c = '\r'
                    · subst h4
                      rw [parseCsvAllAux_cr, parseCsvAllAux_cr]
                      exact IH rest hr false cur row rows
                    · rw [parseCsvAllAux_other c rest cur row rows h1 h2 h3 h4,
                        parseCsvAllAux_other c rest cur row [] h1 h2 h3 h4]
                      exact IH rest hr false (cur.push c) row rows
          | true =>
              by_cases h1 : c = '"'
              · subst h1
                rcases rest with _ | ⟨c2, rest2⟩
                · rw [parseCsvAllAux_exit_nil, parseCsvAllAux_exit_nil]
                  exact IH [] (by simp) false cur row rows
                · by_cases h2 : c2 = '"'
                  · subst h2
                    have hr2 : rest2.length ≤ n := by simp at hl; omega
                    rw [parseCsvAllAux_esc, parseCsvAllAux_esc]
                    exact IH rest2 hr2 true (cur.push '"') row rows
                  · rw [parseCsvAllAux_exit c2 rest2 cur row rows h2,
                      parseCsvAllAux_exit c2 rest2 cur row [] h2]
                    exact IH (c2 :: rest2) hr false cur row rows
              · rw [parseCsvAllAux_litq c rest cur row rows h1,
                  parseCsvAllAux_litq c rest cur row [] h1]
                exact IH rest hr true (cur.push c) row rows
  intro l q cur row rows
  exact key l.length l le_rfl q cur row rows

/-- The real scan is the all-rows scan followed by the non-blank filter. -/
lemma parseCsvAux_eq_filter :
    ∀ (l : List Char) (q : Bool) (cur : String) (row : List String)
      (rows : List (List String)),
      parseCsvAux l q cur row rows =
        rows ++ (parseCsvAllAux l q cur row []).filter rowNonBlank := by
  have key : ∀ (n : Nat) (l : List Char), l.length ≤ n →
      ∀ (q : Bool) (cur : String) (row : List String)
        (rows : List (List String)),
        parseCsvAux l q cur row rows =
          rows ++ (parseCsvAllAux l q cur row []).filter rowNonBlank := by
    intro n
    induction n with
    | zero =>
        intro l hl q cur row rows
        obtain rfl : l = [] := List.length_eq_zero.mp (Nat.le_zero.mp hl)
        rw [parseCsvAux_nil, parseCsvAllAux_nil, pushRowIfNonBlank_eq]
        simp
    | succ n IH =>
        intro l hl q cur row rows
        rcases l with _ | ⟨c, rest⟩
        · rw [parseCsvAux_nil, parseCsvAllAux_nil, pushRowIfNonBlank_eq]
          simp
        · have hr : rest.length ≤ n := by simp at hl; omega
          cases q with
          | false =>
              by_cases h1 : c = '"'
              · subst h1
                rw [parseCsvAux_quote, parseCsvAllAux_quote]
                exact IH rest hr true cur row rows
              · by_cases h2 : c = ','
                · subst h2
                  rw [parseCsvAux_comma, parseCsvAllAux_comma]
                  exact IH rest hr false "" (row ++ [cur]) rows
                · by_cases h3 : c = '\n'
                  · subst h3
                    rw [parseCsvAux_newline, parseCsvAllAux_newline,
                      IH rest hr false "" [] (pushRowIfNonBlank rows (row ++ [cur])),
                      parseCsvAllAux_append rest false "" [] ([] ++ [row ++ [cur]]),
                      pushRowIfNonBlank_eq]
                    by_cases hnb : rowNonBlank (row ++ [cur]) <;>
                      simp [List.filter_append, List.filter_cons, hnb]
                  · by_cases h4 : c = '\r'
                    · subst h4
                      rw [parseCsvAux_cr, parseCsvAllAux_cr]
                      exact IH rest hr false cur row rows
                    · rw [parseCsvAux_other c rest cur row rows h1 h2 h3 h4,
                        parseCsvAllAux_other c rest cur row [] h1 h2 h3 h4]
                      exact IH rest hr false (cur.push c) row rows
          | true =>
              by_cases h1 : c = '"'
              · subst h1
                rcases rest with _ | ⟨c2, rest2⟩
                · rw [parseCsvAux_exit_nil, parseCsvAllAux_exit_nil]
                  exact IH [] (by simp) false cur row rows
                · by_cases h2 : c2 = '"'
                  · subst h2
                    have hr2 : rest2.length ≤ n := by simp at hl; omega
                    rw [parseCsvAux_esc, parseCsvAllAux_esc]
                    exact IH rest2 hr2 true (cur.push '"') row rows
                  · rw [parseCsvAux_exit c2 rest2 cur row rows h2,
                      parseCsvAllAux_exit c2 rest2 cur row [] h2]
                    exact IH (c2 :: rest2) hr false cur row rows
              · rw [parseCsvAux_litq c rest cur row rows h1,
                  parseCsvAllAux_litq c rest cur row [] h1]
                exact IH rest hr true (cur.push c) row rows
  intro l q cur row rows
  exact key l.length l le_rfl q cur row rows

/-- C6: a finalized row appears in the parser's output if and only if one of
its cells is non-empty after trimming: `parseCsv` equals the variant that
keeps every finalized row, followed by the non-blank filter, so all-blank
rows (only commas/whitespace) are dropped uniformly at the start, middle and
end of the file, including the row finalized at end of input. -/
theorem c6_blank_row_suppression :
    ∀ (text : String),
      parseCsv text = (parseCsvAllRows text).filter rowNonBlank := by
  intro text
  have h := parseCsvAux_eq_filter text.data false "" [] []
  simpa [parseCsv, parseCsvAllRows] using h

/-- C9: the parser accepts every input without any error path; in
particular, inside a quoted field that is never terminated (no further quote
until end of input) the scan stays in quoted mode, appends the remaining
characters literally, and finalizes the accumulated partial cell as the last
cell of the last row. -/
theorem c9_unterminated_quote :
    ∀ (l : List Char) (cur : String) (row : List String)
      (rows : List (List String)),
      (∀ c ∈ l, c ≠ '"') →
      parseCsvAux l true cur row rows =
        pushRowIfNonBlank rows (row ++ [⟨cur.data ++ l⟩]) := by
  intro l
  induction l with
  | nil =>
      intro cur row rows _
      rw [parseCsvAux_nil]
      simp
  | cons c rest IH =>
      intro cur row rows hq
      have hc : c ≠ '"' := hq c (List.mem_cons_self c rest)
      rw [parseCsvAux_litq c rest cur row rows hc,
        IH (cur.push c) row rows (fun x hx => hq x (List.mem_cons_of_mem c hx))]
      simp [String.push]

/-- Witness for C9 at a concrete unterminated-quote input. -/
theorem c9_unterminated_quote_witness :
    (∀ c ∈ "abc".data, c ≠ '"') ∧
      parseCsvAux "abc".data true "x" [] [] = [["xabc"]] := by
  refine ⟨by decide, ?_⟩
  rw [c9_unterminated_quote "abc".data "x" [] [] (by decide)]
  decide

/-- C10: the scan loop is total, and the number of iterations is bounded by
the input length: with at least `l.length` units of fuel (one unit per loop
iteration; the escaped-quote iteration consumes two characters) the
fuel-metered scan never runs out and computes exactly `parseCsvAux`. -/
theorem c10_scan_terminates :
    ∀ (fuel : Nat) (l : List Char) (q : Bool) (cur : String)
      (row : List String) (rows : List (List String)),
      l.length ≤ fuel →
      parseCsvFuelAux fuel l q cur row rows =
        some (parseCsvAux l q cur row rows) := by
  intro fuel
  induction fuel with
  | zero =>
      intro l q cur row rows hl
      obtain rfl : l = [] := List.length_eq_zero.mp (Nat.le_zero.mp hl)
      rw [parseCsvFuelAux_nil, parseCsvAux_nil]
  | succ n IH =>
      intro l q cur row rows hl
      rcases l with _ | ⟨c, rest⟩
      · rw [parseCsvFuelAux_nil, parseCsvAux_nil]
      · have hr : rest.length ≤ n := by simp at hl; omega
        cases q with
        | false =>
            by_cases h1 : c = '"'
            · subst h1
              rw [parseCsvFuelAux_quote, parseCsvAux_quote]
              exact IH rest true cur row rows hr
            · by_cases h2 : c = ','
              · subst h2
                rw [parseCsvFuelAux_comma, parseCsvAux_comma]
                exact IH rest false "" (row ++ [cur]) rows hr
              · by_cases h3 : c = '\n'
                · subst h3
                  rw [parseCsvFuelAux_newline, parseCsvAux_newline]
                  exact IH rest false "" [] (pushRowIfNonBlank rows (row ++ [cur])) hr
                · by_cases h4 : c = '\r'
                  · subst h4
                    rw [parseCsvFuelAux_cr, parseCsvAux_cr]
                    exact IH rest false cur row rows hr
                  · rw [parseCsvFuelAux_other n c rest cur row rows h1 h2 h3 h4,
                      parseCsvAux_other c rest cur row rows h1 h2 h3 h4]
                    exact IH rest false (cur.push c) row rows hr
        | true =>
            by_cases h1 : c = '"'
            · subst h1
              rcases rest with _ | ⟨c2, rest2⟩
              · rw [parseCsvFuelAux_exit_nil, parseCsvAux_exit_nil]
                exact IH [] false cur row rows (by simp)
              · by_cases h2 : c2 = '"'
                · subst h2
                  have hr2 : rest2.length ≤ n := by simp at hl; omega
                  rw [parseCsvFuelAux_esc, parseCsvAux_esc]
                  exact IH rest2 true (cur.push '"') row rows hr2
                · rw [parseCsvFuelAux_exit n c2 rest2 cur row rows h2,
                    parseCsvAux_exit c2 rest2 cur row rows h2]
                  exact IH (c2 :: rest2) false cur row rows hr
            · rw [parseCsvFuelAux_litq n c rest cur row rows h1,
                parseCsvAux_litq c rest cur row rows h1]
              exact IH rest true (cur.push c) row rows hr

/-- Witness for C10 at a concrete input containing quoting and newlines. -/
theorem c10_scan_terminates_witness :
    ("a,\"b\"\"c\"\nd".data.length ≤ 11) ∧
      parseCsvFuelAux 11 "a,\"b\"\"c\"\nd".data false "" [] [] =
        some (parseCsvAux "a,\"b\"\"c\"\nd".data false "" [] []) :=
  ⟨by decide,
    c10_scan_terminates 11 "a,\"b\"\"c\"\nd".data false "" [] [] (by decide)⟩

set_option maxRecDepth 40000 in
/-- C1: end-to-end, the documented header plus the single data row
`2024-01-01,Hamlet,Troupe,Theatre,City,A,N,drama;tragedy,92,Great show`
produce exactly one record with the expected field values. -/
theorem c1_end_to_end :
    buildOutput ("Datum,Nazev,Soubor,Misto,Mesto,Hostovacka,StazenoZR,Zanry,Hodnoceni,Komentar\n" ++
      "2024-01-01,Hamlet,Troupe,Theatre,City,A,N,drama;tragedy,92,Great show") =
    Except.ok [⟨"2024-01-01", "Hamlet", "Troupe", "Theatre", "City", true,
      false, ["drama", "tragedy"], some 92, "Great show"⟩] := by
  decide

/-- C2 counterexample: the claim says the numeric coercion strips only a
TRAILING percent sign, so on `"%85"` it would fail to parse and yield null;
the code's `replace("%", "")` removes the FIRST percent sign anywhere, so
`"%85"` actually yields 85. -/
theorem c2_numeric_counterexample :
    toNumberOrNull "%85" = some 85 ∧ toNumberOrNullSpec "%85" = none :=
  ⟨by decide, by decide⟩

set_option maxRecDepth 40000 in
set_option exponentiation.threshold 5000 in
/-- C2 amended: the numeric coercion trims, removes the FIRST percent sign
anywhere in the string (not only a trailing one), yields null on empty, and
otherwise converts the rest as a JavaScript number, yielding null whenever
the result is not a finite double — for an invalid literal, and also for a
valid literal whose value overflows binary64 to infinity (`1e309`, `2e308`),
while large in-range literals (`1e308`) still produce a value; no 0–100
clamping is applied; the claim's examples hold as stated. -/
theorem c2_numeric_amended :
    (∀ v : String, toNumberOrNull v = toNumberOrNullAmended v) ∧
      toNumberOrNull "85" = some 85 ∧
      toNumberOrNull "85%" = some 85 ∧
      toNumberOrNull "" = none ∧
      toNumberOrNull "n/a" = none ∧
      toNumberOrNull "150" = some 150 ∧
      toNumberOrNull "1e309" = none ∧
      toNumberOrNull "2e308" = none ∧
      (toNumberOrNull "1e308").isSome = true :=
  ⟨fun _ => rfl, by decide, by decide, by decide, by decide, by decide,
    by decide, by decide, by decide⟩

/-- C5: in quoted mode a doubled quote appends one literal quote, a lone
quote exits quoted mode, and every other character (commas and newlines
included) is appended literally; hence the cell `"a,b\nc""d"` parses to the
single cell `a,b\nc"d` rather than splitting into several cells or rows. -/
theorem c5_quoted_field :
    parseCsv "\"a,b\nc\"\"d\"" = [["a,b\nc\"d"]] ∧
      (∀ (rest : List Char) (cur : String) (row : List String)
          (rows : List (List String)),
        parseCsvAux ('"' :: '"' :: rest) true cur row rows =
          parseCsvAux rest true (cur.push '"') row rows) ∧
      (∀ (rest : List Char) (cur : String) (row : List String)
          (rows : List (List String)), rest.head? ≠ some '"' →
        parseCsvAux ('"' :: rest) true cur row rows =
          parseCsvAux rest false cur row rows) ∧
      (∀ (c : Char) (rest : List Char) (cur : String) (row : List String)
          (rows : List (List String)), c ≠ '"' →
        parseCsvAux (c :: rest) true cur row rows =
          parseCsvAux rest true (cur.push c) row rows) := by
  refine ⟨by decide, fun rest cur row rows => parseCsvAux_esc rest cur row rows,
    ?_, fun c rest cur row rows h => parseCsvAux_litq c rest cur row rows h⟩
  intro rest cur row rows h
  rcases rest with _ | ⟨c2, rest2⟩
  · exact parseCsvAux_exit_nil cur row rows
  · have h2 : c2 ≠ '"' := by simpa using h
    exact parseCsvAux_exit c2 rest2 cur row rows h2

/-- C7: boolean coercion returns true exactly when the trimmed, uppercased
value is one of the tokens A, Y, YES, TRUE, 1; the listed examples hold; and
the record's `host` and `removed` fields are both computed by this same
function on their respective columns. -/
theorem c7_bool_coercion :
    (∀ v : String, normBool v = true ↔
      jsToUpper (jsTrim v) ∈ (["A", "Y", "YES", "TRUE", "1"] : List String)) ∧
      normBool "a" = true ∧ normBool "A" = true ∧ normBool "yes" = true ∧
      normBool "TRUE" = true ∧ normBool "1" = true ∧ normBool "n" = false ∧
      normBool "" = false ∧ normBool "maybe" = false ∧ normBool "0" = false ∧
      (∀ (idx : String → Option Nat) (r : List String) (s : ShowRecord),
        rowToShow idx r = some s →
          s.host = normBool (cellOf idx r "Hostovacka") ∧
          s.removed = normBool (cellOf idx r "StazenoZR")) := by
  refine ⟨?_, by decide, by decide, by decide, by decide, by decide, by decide,
    by decide, by decide, by decide, ?_⟩
  · intro v
    simp only [normBool, Bool.or_eq_true, decide_eq_true_eq, List.mem_cons,
      List.not_mem_nil, or_false]
    tauto
  · intro idx r s h
    simp only [rowToShow] at h
    split at h
    · exact Option.noConfusion h
    · injection h with h2
      subst h2
      exact ⟨rfl, rfl⟩

/-- C8: genre coercion yields the empty list on a blank value and otherwise
splits on `;`, `|`, `,`, trims each token, drops tokens that trim to empty,
lowercases the survivors, preserves order and keeps duplicates; every
emitted genre is non-empty; the claim's examples hold. -/
theorem c8_genre_splitting :
    (∀ v : String, splitGenres v =
      (((splitOnDelims (jsTrim v)).map jsTrim).filter (fun s => s ≠ "")).map
        jsToLower) ∧
      (∀ v : String, jsTrim v = "" → splitGenres v = []) ∧
      (∀ (v g : String), g ∈ splitGenres v → g ≠ "") ∧
      splitGenres "Drama; comedy,Site Specific" =
        ["drama", "comedy", "site specific"] ∧
      splitGenres "" = [] := by
  have hchain : ∀ v : String, splitGenres v =
      (((splitOnDelims (jsTrim v)).map jsTrim).filter (fun s => s ≠ "")).map
        jsToLower := by
    intro v
    by_cases h : jsTrim v = ""
    · simp only [splitGenres, h, if_pos]
      rfl
    · simp [splitGenres, h]
  have hne : ∀ (v g : String), g ∈ splitGenres v → g ≠ "" := by
    intro v g hg
    rw [hchain v] at hg
    obtain ⟨g1, hg1, rfl⟩ := List.mem_map.mp hg
    have hg2 := List.of_mem_filter hg1
    exact jsToLower_ne_empty g1 (by simpa using hg2)
  exact ⟨hchain,
    fun v h => by simp [splitGenres, h],
    hne, by decide, by decide⟩

/-- C3: when the trimmed header row of the parsed CSV lacks at least one of
the ten required column names, the run fails with `process.exit(1)`
(modelled as `Except.error`): zero records are emitted and no output file is
written, before any data row is processed. -/
theorem c3_missing_columns :
    ∀ (text : String),
      (∃ c ∈ requiredCols,
        lastIdx c (((parseCsv text).headD []).map (fun h => jsTrim h)) = none) →
      ∃ msg, buildOutput text = Except.error msg := by
  intro text hmiss
  by_cases hlen : (parseCsv text).length < 2
  · refine ⟨"CSV is empty (need header + at least one row).", ?_⟩
    simp only [buildOutput]
    rw [if_pos hlen]
  · obtain ⟨c, hcmem, hnone⟩ := hmiss
    have hnone2 : (lastIdx c (((parseCsv text).headD []).map
        (fun h => jsTrim h))).isNone = true := by
      rw [hnone]
      rfl
    have hmem : c ∈ requiredCols.filter
        (fun r => (lastIdx r (((parseCsv text).headD []).map
          (fun h => jsTrim h))).isNone) :=
      List.mem_filter.mpr ⟨hcmem, hnone2⟩
    have hfalse : (requiredCols.filter
        (fun r => (lastIdx r (((parseCsv text).headD []).map
          (fun h => jsTrim h))).isNone)).isEmpty = false := by
      cases hfe : requiredCols.filter
          (fun r => (lastIdx r (((parseCsv text).headD []).map
            (fun h => jsTrim h))).isNone) with
      | nil => rw [hfe] at hmem; cases hmem
      | cons a t => rfl
    refine ⟨"Missing columns in CSV header: " ++ String.intercalate ", "
      (requiredCols.filter (fun r => (lastIdx r (((parseCsv text).headD []).map
        (fun h => jsTrim h))).isNone)), ?_⟩
    simp only [buildOutput]
    rw [if_neg hlen, hfalse]
    rfl

/-- Witness for C3: a header `A,B` misses all required columns and the run
fails. -/
theorem c3_missing_columns_witness :
    (∃ c ∈ requiredCols,
      lastIdx c (((parseCsv "A,B\n1,2").headD []).map (fun h => jsTrim h)) =
        none) ∧
      ∃ msg, buildOutput "A,B\n1,2" = Except.error msg := by
  have h : ∃ c ∈ requiredCols,
      lastIdx c (((parseCsv "A,B\n1,2").headD []).map (fun h => jsTrim h)) =
        none := ⟨"Datum", by decide, by decide⟩
  exact ⟨h, c3_missing_columns "A,B\n1,2" h⟩

lemma rowToShow_eq_none_iff (idx : String → Option Nat) (r : List String) :
    rowToShow idx r = none ↔
      cellOf idx r "Datum" = "" ∨ cellOf idx r "Nazev" = "" := by
  simp only [rowToShow]
  split <;> rename_i hcond <;> simp at hcond ⊢ <;> tauto

lemma processShows_eq_filterMap (idx : String → Option Nat)
    (rows : List (List String)) :
    processShows idx rows = rows.filterMap (rowToShow idx) := by
  simp [processShows, List.reduceOption, List.filterMap_map, Function.comp]

lemma mem_processShows (idx : String → Option Nat) (rows : List (List String)) :
    ∀ s ∈ processShows idx rows, s.date ≠ "" ∧ s.title ≠ "" := by
  intro s hs
  rw [processShows_eq_filterMap] at hs
  obtain ⟨r, hr, hsome⟩ := List.mem_filterMap.mp hs
  by_cases hd : cellOf idx r "Datum" = "" ∨ cellOf idx r "Nazev" = ""
  · rw [(rowToShow_eq_none_iff idx r).mpr hd] at hsome
    exact Option.noConfusion hsome
  · push_neg at hd
    simp only [rowToShow] at hsome
    rw [if_neg (by simp [hd.1, hd.2])] at hsome
    injection hsome with h2
    subst h2
    exact ⟨hd.1, hd.2⟩

lemma warnRows_eq (idx : String → Option Nat) (rows : List (List String)) :
    warnRows idx rows = (excludedIndices idx rows).map (fun i => i + 2) := by
  simp only [warnRows, excludedIndices, List.mapIdx_eq_enum_map,
    List.enum_eq_zip_range, List.reduceOption, List.filterMap_map,
    List.map_filterMap]
  congr 1
  funext p
  rcases p with ⟨i, r⟩
  by_cases hx : rowToShow idx r = none <;> simp [Function.uncurry, hx]

/-- C4: a data row is excluded from the output exactly when its trimmed
`Datum` or `Nazev` cell is empty; each excluded row yields exactly one
diagnostic, reporting the 0-based data-row position `i` as row `i + 2` (the
header counts as row 1, so the k-th data row is row k + 1); the remaining
rows are emitted unchanged and in input order, so every emitted record has
non-empty date and title. -/
theorem c4_required_field_skip :
    ∀ (idx : String → Option Nat) (rows : List (List String)),
      (∀ r, rowToShow idx r = none ↔
        cellOf idx r "Datum" = "" ∨ cellOf idx r "Nazev" = "") ∧
      warnRows idx rows = (excludedIndices idx rows).map (fun i => i + 2) ∧
      processShows idx rows = rows.filterMap (rowToShow idx) ∧
      (∀ s ∈ processShows idx rows, s.date ≠ "" ∧ s.title ≠ "") :=
  fun idx rows =>
    ⟨fun r => rowToShow_eq_none_iff idx r, warnRows_eq idx rows,
      processShows_eq_filterMap idx rows, mem_processShows idx rows⟩

end BuildData
